import Mathlib

/-!
Verification development for the tool-augmented streaming chat pipeline of the
PLG_AI repository.  Each definition is a shallow embedding of a function of the
Python source under `src/llm-api/`; the theorems at the end of the file settle
the frozen claims about the specification.

Conventions used throughout:
* Python strings are modelled as `String`; where Python functions such as
  `str.strip`, `str.replace` or `str.find` are needed in computations the
  corresponding operation is re-implemented on `List Char` so that every
  definition evaluates inside the kernel.
* External collaborators (the completion backend, the tool provider, the JSON
  decoder) are passed in as explicit function arguments: the embedding
  quantifies over their behaviour.
* Python exceptions are modelled with `Except`/`Option` values or explicit
  outcome types; a Python `try`/`except` block becomes a `match` on those.
-/

/-! ### Character-level string utilities

Kernel-computable counterparts of the Python string primitives used by the
source code (`str.strip`, `str.replace(pat, "")`, `startswith`).
-/

/-- Models Python `str.strip()` on the character list of a string. -/
def char_trim (cs : List Char) : List Char :=
  ((cs.dropWhile Char.isWhitespace).reverse.dropWhile Char.isWhitespace).reverse

/-- Fuel-driven worker for `remove_all`.  The fuel is the length of the input,
which bounds the number of scanning steps. -/
def remove_all_go (pat : List Char) : Nat → List Char → List Char
  | _, [] => []
  | 0, cs => cs
  | fuel + 1, c :: cs =>
    if pat.isPrefixOf (c :: cs) then
      remove_all_go pat fuel ((c :: cs).drop pat.length)
    else
      c :: remove_all_go pat fuel cs

/-- Models Python `s.replace(pat, "")`: delete every (left-to-right,
non-overlapping) occurrence of `pat`. -/
def remove_all (pat cs : List Char) : List Char :=
  remove_all_go pat cs.length cs

/-! ### Data model: messages

`core/models.py`, class `Message`: role is one of system/user/assistant,
content is text (the pydantic validator strips it and rejects empty content;
the embedding does not need that restriction for any claim).
-/

inductive Role
  | system
  | user
  | assistant
deriving DecidableEq

structure Message where
  role : Role
  content : String
deriving DecidableEq

/-! ### ConversationManager (`utils/conversation.py`)

The token counter (`_count_tokens`, delegated to the model tokenizer) is an
external collaborator: it is passed in as an arbitrary function
`count : List Message → Nat`.
-/

/-- The consecutive-user-message cleanup loop of `prepare_conversation`
(`utils/conversation.py` lines 85–93): within a run of consecutive user
messages only the last one is kept (the Python loop overwrites the previously
kept user message with the current one). -/
def collapse_users : List Message → List Message
  | [] => []
  | [m] => [m]
  | m1 :: m2 :: rest =>
    if m1.role = Role.user ∧ m2.role = Role.user then
      collapse_users (m2 :: rest)
    else
      m1 :: collapse_users (m2 :: rest)

/-- `ConversationManager._truncate_by_tokens` (`utils/conversation.py` lines
115–157).  `budget` is `max_context_tokens - response_reserve_tokens`.  The
Python `while messages:` loop re-tests the token count of
`[system_message] + messages` each round and pops the leading user/assistant
pair, or the single leading message otherwise; with one message left it pops
that message too (after which the `while` guard stops the loop on the empty
list). -/
def truncate_by_tokens (count : List Message → Nat) (budget : Nat)
    (system_message : Message) : List Message → List Message
  | [] => []
  | [m] =>
    if count [system_message, m] ≤ budget then [m] else []
  | m1 :: m2 :: rest =>
    if count (system_message :: m1 :: m2 :: rest) ≤ budget then
      m1 :: m2 :: rest
    else if m1.role = Role.user ∧ m2.role = Role.assistant then
      truncate_by_tokens count budget system_message rest
    else
      truncate_by_tokens count budget system_message (m2 :: rest)

/-- `ConversationManager.prepare_conversation` (`utils/conversation.py` lines
64–112), restricted to the message list it returns (the second tuple component
is logging metadata that no claim mentions): collapse consecutive user
messages, drop every existing system message, truncate by tokens against the
budget, and put a fresh system message built from `system_prompt` at the
front. -/
def prepare_conversation (count : List Message → Nat)
    (max_context_tokens response_reserve_tokens : Nat)
    (system_prompt : String) (messages : List Message) : List Message :=
  let cleaned := collapse_users messages
  let conversation := cleaned.filter (fun m => decide (m.role ≠ Role.system))
  let system_message : Message := ⟨Role.system, system_prompt⟩
  system_message ::
    truncate_by_tokens count (max_context_tokens - response_reserve_tokens)
      system_message conversation

/-! Lemmas about `collapse_users` and `truncate_by_tokens`. -/

/-- No two adjacent user messages. -/
def NoConsecUsers (l : List Message) : Prop :=
  List.Chain' (fun a b => ¬(a.role = Role.user ∧ b.role = Role.user)) l

theorem collapse_users_cons_of_not_user (m : Message) (l : List Message)
    (h : m.role ≠ Role.user) :
    collapse_users (m :: l) = m :: collapse_users l := by
  cases l with
  | nil => rfl
  | cons m2 rest =>
    rw [collapse_users]
    rw [if_neg]
    intro hc
    exact h hc.1

theorem collapse_users_head_role (m : Message) (l : List Message)
    (h : m.role ≠ Role.user) :
    (collapse_users (m :: l)).head? = some m := by
  rw [collapse_users_cons_of_not_user m l h]
  rfl

theorem collapse_users_chain (l : List Message) :
    NoConsecUsers (collapse_users l) := by
  induction l with
  | nil => exact List.chain'_nil
  | cons m1 tl ih =>
    cases tl with
    | nil => exact List.chain'_singleton m1
    | cons m2 rest =>
      rw [collapse_users]
      by_cases h : m1.role = Role.user ∧ m2.role = Role.user
      · rw [if_pos h]; exact ih
      · rw [if_neg h]
        rw [NoConsecUsers, List.chain'_cons']
        refine ⟨?_, ih⟩
        intro y hy
        by_cases hm1 : m1.role = Role.user
        · have hm2 : m2.role ≠ Role.user := fun hc => h ⟨hm1, hc⟩
          have := collapse_users_head_role m2 rest hm2
          rw [this] at hy
          cases hy
          intro hc
          exact hm2 hc.2
        · intro hc
          exact hm1 hc.1

theorem collapse_users_of_chain (l : List Message) (h : NoConsecUsers l) :
    collapse_users l = l := by
  induction l with
  | nil => rfl
  | cons m1 tl ih =>
    cases tl with
    | nil => rfl
    | cons m2 rest =>
      rw [NoConsecUsers, List.chain'_cons] at h
      rw [collapse_users, if_neg h.1, ih h.2]

theorem collapse_users_mem {x : Message} : ∀ {l : List Message},
    x ∈ collapse_users l → x ∈ l := by
  intro l
  induction l with
  | nil => intro h; exact absurd h (by simp [collapse_users])
  | cons m1 tl ih =>
    cases tl with
    | nil => intro h; exact h
    | cons m2 rest =>
      rw [collapse_users]
      by_cases hc : m1.role = Role.user ∧ m2.role = Role.user
      · rw [if_pos hc]
        intro h
        exact List.mem_cons_of_mem m1 (ih h)
      · rw [if_neg hc]
        intro h
        rcases List.mem_cons.mp h with h1 | h2
        · exact h1 ▸ List.mem_cons_self m1 (m2 :: rest)
        · exact List.mem_cons_of_mem m1 (ih h2)

theorem truncate_by_tokens_suffix (count : List Message → Nat) (budget : Nat)
    (s : Message) : ∀ (l : List Message),
    truncate_by_tokens count budget s l <:+ l := by
  have H : ∀ (n : Nat) (l : List Message), l.length ≤ n →
      truncate_by_tokens count budget s l <:+ l := by
    intro n
    induction n with
    | zero =>
      intro l hl
      have : l = [] := List.length_eq_zero.mp (Nat.le_zero.mp hl)
      subst this
      exact List.nil_suffix
    | succ n ih =>
      intro l hl
      match l with
      | [] => exact List.nil_suffix
      | [m] =>
        rw [truncate_by_tokens]
        split
        · exact List.suffix_refl [m]
        · exact List.nil_suffix
      | m1 :: m2 :: rest =>
        rw [truncate_by_tokens]
        split
        · exact List.suffix_refl _
        · split
          · have h1 : rest.length ≤ n := by
              simp only [List.length_cons] at hl
              omega
            exact (ih rest h1).trans
              ((List.suffix_cons m2 rest).trans (List.suffix_cons m1 (m2 :: rest)))
          · have h1 : (m2 :: rest).length ≤ n := by
              simp only [List.length_cons] at hl ⊢
              omega
            exact (ih (m2 :: rest) h1).trans (List.suffix_cons m1 (m2 :: rest))
  intro l
  exact H l.length l (Nat.le_refl _)

theorem truncate_by_tokens_fits (count : List Message → Nat) (budget : Nat)
    (s : Message) : ∀ (l : List Message),
    truncate_by_tokens count budget s l = [] ∨
      count (s :: truncate_by_tokens count budget s l) ≤ budget := by
  have H : ∀ (n : Nat) (l : List Message), l.length ≤ n →
      truncate_by_tokens count budget s l = [] ∨
        count (s :: truncate_by_tokens count budget s l) ≤ budget := by
    intro n
    induction n with
    | zero =>
      intro l hl
      have : l = [] := List.length_eq_zero.mp (Nat.le_zero.mp hl)
      subst this
      exact Or.inl rfl
    | succ n ih =>
      intro l hl
      match l with
      | [] => exact Or.inl rfl
      | [m] =>
        rw [truncate_by_tokens]
        split
        · next h => exact Or.inr h
        · exact Or.inl rfl
      | m1 :: m2 :: rest =>
        rw [truncate_by_tokens]
        split
        · next h => exact Or.inr h
        · split
          · have h1 : rest.length ≤ n := by
              simp only [List.length_cons] at hl
              omega
            exact ih rest h1
          · have h1 : (m2 :: rest).length ≤ n := by
              simp only [List.length_cons] at hl ⊢
              omega
            exact ih (m2 :: rest) h1
  intro l
  exact H l.length l (Nat.le_refl _)

theorem truncate_by_tokens_of_fits (count : List Message → Nat) (budget : Nat)
    (s : Message) (l : List Message) (h : count (s :: l) ≤ budget) :
    truncate_by_tokens count budget s l = l := by
  match l with
  | [] => rfl
  | [m] =>
    rw [truncate_by_tokens, if_pos h]
  | m1 :: m2 :: rest =>
    rw [truncate_by_tokens, if_pos h]

/-- Membership in the truncated, system-filtered conversation implies a
non-system role. -/
theorem mem_truncate_filter_not_system (count : List Message → Nat)
    (budget : Nat) (s : Message) (l : List Message) :
    ∀ m ∈ truncate_by_tokens count budget s
      (l.filter (fun m => decide (m.role ≠ Role.system))),
      m.role ≠ Role.system := by
  intro m hm
  have hsub :=
    (truncate_by_tokens_suffix count budget s
      (l.filter (fun m => decide (m.role ≠ Role.system)))).subset hm
  have := List.of_mem_filter hsub
  exact of_decide_eq_true this

/-- Unfolding of `prepare_conversation` on an input whose head is the system
message and whose tail contains no system-role message: the filter step keeps
exactly the collapsed tail. -/
theorem prepare_conversation_cons_system (count : List Message → Nat)
    (max_context_tokens response_reserve_tokens : Nat) (system_prompt : String)
    (c1 : List Message) (hns : ∀ m ∈ c1, m.role ≠ Role.system) :
    prepare_conversation count max_context_tokens response_reserve_tokens
        system_prompt ((⟨Role.system, system_prompt⟩ : Message) :: c1) =
      (⟨Role.system, system_prompt⟩ : Message) ::
        truncate_by_tokens count
          (max_context_tokens - response_reserve_tokens)
          ⟨Role.system, system_prompt⟩ (collapse_users c1) := by
  have hhead : (⟨Role.system, system_prompt⟩ : Message).role ≠ Role.user := by
    intro h
    exact Role.noConfusion h
  have hdef :
      prepare_conversation count max_context_tokens response_reserve_tokens
          system_prompt ((⟨Role.system, system_prompt⟩ : Message) :: c1) =
        (⟨Role.system, system_prompt⟩ : Message) ::
          truncate_by_tokens count
            (max_context_tokens - response_reserve_tokens)
            ⟨Role.system, system_prompt⟩
            ((collapse_users ((⟨Role.system, system_prompt⟩ : Message) :: c1)).filter
              (fun m => decide (m.role ≠ Role.system))) := rfl
  rw [hdef, collapse_users_cons_of_not_user _ _ hhead]
  have hfilter :
      ((⟨Role.system, system_prompt⟩ : Message) :: collapse_users c1).filter
          (fun m => decide (m.role ≠ Role.system)) = collapse_users c1 := by
    rw [List.filter_cons]
    have : (decide ((⟨Role.system, system_prompt⟩ : Message).role ≠ Role.system)) = false := by
      simp
    rw [this]
    simp only [Bool.false_eq_true, if_false]
    rw [List.filter_eq_self]
    intro a ha
    have : a.role ≠ Role.system := hns a (collapse_users_mem ha)
    exact decide_eq_true this
  rw [hfilter]

/-- Applying `prepare_conversation` to any output of shape
`system message :: non-system tail` reaches a fixed point after one more
application. -/
theorem prepare_conversation_fixed_from (count : List Message → Nat)
    (max_context_tokens response_reserve_tokens : Nat) (system_prompt : String)
    (c1 : List Message) (hns : ∀ m ∈ c1, m.role ≠ Role.system) :
    prepare_conversation count max_context_tokens response_reserve_tokens
        system_prompt
        (prepare_conversation count max_context_tokens response_reserve_tokens
          system_prompt ((⟨Role.system, system_prompt⟩ : Message) :: c1)) =
      prepare_conversation count max_context_tokens response_reserve_tokens
        system_prompt ((⟨Role.system, system_prompt⟩ : Message) :: c1) := by
  set s : Message := ⟨Role.system, system_prompt⟩ with hs
  set budget := max_context_tokens - response_reserve_tokens with hb
  rw [prepare_conversation_cons_system count _ _ _ c1 hns]
  set c2 := truncate_by_tokens count budget s (collapse_users c1) with hc2
  have hc2ns : ∀ m ∈ c2, m.role ≠ Role.system := by
    intro m hm
    have hsub := (truncate_by_tokens_suffix count budget s (collapse_users c1)).subset hm
    exact hns m (collapse_users_mem hsub)
  have hc2chain : NoConsecUsers c2 :=
    (collapse_users_chain c1).suffix
      (truncate_by_tokens_suffix count budget s (collapse_users c1))
  rw [prepare_conversation_cons_system count _ _ _ c2 hc2ns]
  rw [collapse_users_of_chain c2 hc2chain]
  rcases truncate_by_tokens_fits count budget s (collapse_users c1) with hnil | hfit
  · rw [← hc2] at hnil
    rw [hnil]
    rfl
  · rw [← hc2] at hfit
    rw [truncate_by_tokens_of_fits count budget s c2 hfit]

/-- C4 (amended): `prepare_conversation` is not idempotent in general (see the
counterexample), but it stabilizes after two applications: a third application
returns the second application's output unchanged, for every token counter,
budget, system prompt and message history. -/
theorem prepare_conversation_stabilizes (count : List Message → Nat)
    (max_context_tokens response_reserve_tokens : Nat) (system_prompt : String)
    (messages : List Message) :
    prepare_conversation count max_context_tokens response_reserve_tokens
        system_prompt
        (prepare_conversation count max_context_tokens response_reserve_tokens
          system_prompt
          (prepare_conversation count max_context_tokens response_reserve_tokens
            system_prompt messages)) =
      prepare_conversation count max_context_tokens response_reserve_tokens
        system_prompt
        (prepare_conversation count max_context_tokens response_reserve_tokens
          system_prompt messages) := by
  have h1 :
      prepare_conversation count max_context_tokens response_reserve_tokens
          system_prompt messages =
        (⟨Role.system, system_prompt⟩ : Message) ::
          truncate_by_tokens count
            (max_context_tokens - response_reserve_tokens)
            ⟨Role.system, system_prompt⟩
            ((collapse_users messages).filter
              (fun m => decide (m.role ≠ Role.system))) := rfl
  rw [h1]
  exact prepare_conversation_fixed_from count max_context_tokens
    response_reserve_tokens system_prompt _
    (mem_truncate_filter_not_system count _ _ _)

/-- C4 counterexample: with a token counter under which everything fits, the
history `[user "a", system "x", user "b"]` refutes idempotence — the first
application removes the embedded system message, leaving two consecutive user
messages that only the second application collapses. -/
theorem prepare_conversation_not_idempotent :
    prepare_conversation (fun _ => 0) 100 0 "S"
        (prepare_conversation (fun _ => 0) 100 0 "S"
          [⟨Role.user, "a"⟩, ⟨Role.system, "x"⟩, ⟨Role.user, "b"⟩]) ≠
      prepare_conversation (fun _ => 0) 100 0 "S"
        [⟨Role.user, "a"⟩, ⟨Role.system, "x"⟩, ⟨Role.user, "b"⟩] := by
  decide

/-- C3 (amended): the truncation loop removes messages only from the front
(the result is a suffix of the input), the result either fits the budget or is
empty, and nothing is removed while the conversation fits the budget.  The
Python loop CAN reduce the history to empty (and below one exchange): when
even the remaining single message (or final pair) together with the system
message exceeds the budget, it is popped and the `while messages:` guard ends
the loop on the empty list.  The system message itself is never part of the
truncated list and is re-added at the front by `prepare_conversation`. -/
theorem truncate_by_tokens_budget_spec (count : List Message → Nat)
    (budget : Nat) (s : Message) (l : List Message) :
    truncate_by_tokens count budget s l <:+ l ∧
      (truncate_by_tokens count budget s l = [] ∨
        count (s :: truncate_by_tokens count budget s l) ≤ budget) ∧
      (count (s :: l) ≤ budget → truncate_by_tokens count budget s l = l) :=
  ⟨truncate_by_tokens_suffix count budget s l,
    truncate_by_tokens_fits count budget s l,
    truncate_by_tokens_of_fits count budget s l⟩

/-- Witness for `truncate_by_tokens_budget_spec` at a concrete input. -/
theorem truncate_by_tokens_budget_spec_witness :
    truncate_by_tokens (fun l => l.length) 10 ⟨Role.system, "S"⟩
        [⟨Role.user, "q"⟩] <:+ [⟨Role.user, "q"⟩] ∧
      (truncate_by_tokens (fun l => l.length) 10 ⟨Role.system, "S"⟩
          [⟨Role.user, "q"⟩] = [] ∨
        (fun (l : List Message) => l.length)
            (⟨Role.system, "S"⟩ ::
              truncate_by_tokens (fun l => l.length) 10 ⟨Role.system, "S"⟩
                [⟨Role.user, "q"⟩]) ≤ 10) ∧
      ((fun (l : List Message) => l.length)
          (⟨Role.system, "S"⟩ :: [⟨Role.user, "q"⟩]) ≤ 10 →
        truncate_by_tokens (fun l => l.length) 10 ⟨Role.system, "S"⟩
          [⟨Role.user, "q"⟩] = [⟨Role.user, "q"⟩]) :=
  truncate_by_tokens_budget_spec (fun l => l.length) 10 ⟨Role.system, "S"⟩
    [⟨Role.user, "q"⟩]

/-- C3 counterexample: with a counter under which even one exchange plus the
system message exceeds the budget, the loop removes the final user/assistant
pair and returns the empty history — the claim said the history is never
reduced to empty and never drops below one exchange. -/
theorem truncate_by_tokens_empties_history :
    truncate_by_tokens (fun _ => 100) 10 ⟨Role.system, "S"⟩
        [⟨Role.user, "q"⟩, ⟨Role.assistant, "a"⟩] = [] ∧
      prepare_conversation (fun _ => 100) 10 0 "S"
        [⟨Role.user, "q"⟩, ⟨Role.assistant, "a"⟩] = [⟨Role.system, "S"⟩] := by
  constructor
  · rfl
  · rfl

/-- C5 (amended): the output of `prepare_conversation` always has exactly one
system-role message, at index 0, whose content is the configured
`system_prompt`; pre-existing system messages are removed from the history
(not preserved) and the fresh system message takes their place. -/
theorem prepare_conversation_system_message (count : List Message → Nat)
    (max_context_tokens response_reserve_tokens : Nat) (system_prompt : String)
    (messages : List Message) :
    (prepare_conversation count max_context_tokens response_reserve_tokens
        system_prompt messages).head? =
      some (⟨Role.system, system_prompt⟩ : Message) ∧
      (prepare_conversation count max_context_tokens response_reserve_tokens
        system_prompt messages).countP
          (fun m => decide (m.role = Role.system)) = 1 := by
  constructor
  · rfl
  · have h1 :
        prepare_conversation count max_context_tokens response_reserve_tokens
            system_prompt messages =
          (⟨Role.system, system_prompt⟩ : Message) ::
            truncate_by_tokens count
              (max_context_tokens - response_reserve_tokens)
              ⟨Role.system, system_prompt⟩
              ((collapse_users messages).filter
                (fun m => decide (m.role ≠ Role.system))) := rfl
    rw [h1, List.countP_cons]
    have hz : (truncate_by_tokens count
        (max_context_tokens - response_reserve_tokens)
        ⟨Role.system, system_prompt⟩
        ((collapse_users messages).filter
          (fun m => decide (m.role ≠ Role.system)))).countP
        (fun m => decide (m.role = Role.system)) = 0 := by
      rw [List.countP_eq_zero]
      intro a ha
      have := mem_truncate_filter_not_system count
        (max_context_tokens - response_reserve_tokens)
        ⟨Role.system, system_prompt⟩ (collapse_users messages) a ha
      simpa using this
    rw [hz]
    simp

/-- C5 counterexample: an existing system message is dropped, not preserved —
its content never appears in the output. -/
theorem prepare_conversation_replaces_system :
    (⟨Role.system, "old"⟩ : Message) ∈
        ([⟨Role.system, "old"⟩, ⟨Role.user, "hi"⟩] : List Message) ∧
      (⟨Role.system, "old"⟩ : Message) ∉
        prepare_conversation (fun _ => 0) 100 0 "new"
          [⟨Role.system, "old"⟩, ⟨Role.user, "hi"⟩] := by
  decide

/-! ### Stream frames (`core/llm_engine.py`, `services/chat_service.py`)

The wire protocol emits SSE strings; every `yield` site of the Python
generators produces either a content chunk (`data: <chunk>`), the terminal
done marker (`data: [DONE]`), or an error payload (`data: {"error": ...}`).
The embedding tags each emitted frame accordingly; `Frame.error` carries the
human-readable message embedded in the JSON error payload.
-/

inductive Frame
  | contentDelta (s : String)
  | done
  | error (msg : String)
deriving DecidableEq

/-- A terminal frame is the done marker or an error payload. -/
def is_terminal : Frame → Bool
  | Frame.done => true
  | Frame.error _ => true
  | Frame.contentDelta _ => false

/-- Outcome of the streaming HTTP POST issued by `LLMEngine.chat_stream`:
either the request/stream raises (connect error, timeout, read error — the
`except Exception` path), or a response arrives with a status code, a sequence
of upstream lines, and optionally an exception raised by the line iterator
after those lines (`stream_err`). -/
inductive StreamOutcome
  | transportError (msg : String)
  | response (status : Nat) (lines : List String) (stream_err : Option String)
deriving DecidableEq

/-- Environment of one `chat_stream` call: result of the health probe and the
outcome of the streaming request. -/
structure Env where
  healthOk : Bool
  outcome : StreamOutcome
deriving DecidableEq

/-- Models `line.startswith("data: ")`. -/
def is_data_line (line : String) : Bool :=
  "data: ".toList.isPrefixOf line.toList

/-- Models `line.removeprefix("data: ").strip()` (only used on lines that
start with `"data: "`, so the prefix removal is a plain drop of 6
characters). -/
def sse_chunk (line : String) : List Char :=
  char_trim (line.toList.drop 6)

/-- Line that terminates the upstream stream: `data: [DONE]` (up to
whitespace around the chunk). -/
def is_done_data_line (line : String) : Bool :=
  is_data_line line && decide (sse_chunk line = "[DONE]".toList)

/-- The line-processing loop of `LLMEngine.chat_stream` (lines 157–173):
non-data lines are skipped, a `[DONE]` chunk is re-emitted as the done marker
and breaks the loop, any other chunk is re-emitted as a content frame.  If the
line iterator raises after the listed lines (`stream_err = some e`), the outer
handler emits one error frame; if the upstream simply ends
(`stream_err = none`), nothing more is emitted. -/
def stream_frames : List String → Option String → List Frame
  | [], none => []
  | [], some e => [Frame.error ("An error occurred: " ++ e)]
  | line :: rest, stream_err =>
    if is_data_line line then
      if sse_chunk line = "[DONE]".toList then [Frame.done]
      else
        Frame.contentDelta (String.mk (sse_chunk line)) ::
          stream_frames rest stream_err
    else stream_frames rest stream_err

/-- Result of one `chat_stream` call: the emitted frames plus whether the
health check ran, whether the streaming HTTP request was issued, and whether
the session was registered in `active_sessions`. -/
structure ChatStreamResult where
  frames : List Frame
  health_checked : Bool
  http_requested : Bool
  session_registered : Bool
deriving DecidableEq

/-- `LLMEngine.chat_stream` (`core/llm_engine.py` lines 111–183).  Empty
input: one error frame before any tracking.  Unhealthy backend: one error
frame (the session was registered first and is cleaned up in the `finally`).
Transport error: one error frame.  Non-200 status: one error frame (the
intermediate `await response.text()` may itself raise, in which case the
generic handler emits the error frame instead — either way exactly one error
frame).  Otherwise the line loop of `stream_frames` runs. -/
def chat_stream (env : Env) (messages : List Message) : ChatStreamResult :=
  if messages = [] then
    { frames := [Frame.error "No messages provided"],
      health_checked := false, http_requested := false,
      session_registered := false }
  else if env.healthOk then
    match env.outcome with
    | StreamOutcome.transportError e =>
      { frames := [Frame.error ("An error occurred: " ++ e)],
        health_checked := true, http_requested := true,
        session_registered := true }
    | StreamOutcome.response status lines stream_err =>
      if status ≠ 200 then
        { frames := [Frame.error ("LLM service error: " ++ toString status)],
          health_checked := true, http_requested := true,
          session_registered := true }
      else
        { frames := stream_frames lines stream_err,
          health_checked := true, http_requested := true,
          session_registered := true }
  else
    { frames := [Frame.error "LLM service is not available"],
      health_checked := true, http_requested := false,
      session_registered := true }

/-- `ChatService.extract_latest_user_message` (`services/chat_service.py`
lines 278–291): content of the most recent user-role message, stripped. -/
def extract_latest_user_message (messages : List Message) : Option String :=
  (messages.reverse.find? (fun m => decide (m.role = Role.user))).map
    (fun m => String.mk (char_trim m.content.toList))

/-- Events observed by the agent-route streaming loop of
`ChatService.stream_chat` (lines 126–251), abstracted to the cases the loop
distinguishes: an output-text delta, the `response.completed` event, a tool
output item, the text parts of a message output item, and anything else. -/
inductive AgentEvent
  | text_delta (s : String)
  | completed
  | tool_output (s : String)
  | message_output (parts : List String)
  | other
deriving DecidableEq

/-- Frames emitted by the agent-route event loop: deltas and non-empty
message-output parts become content frames; `completed` and a non-empty tool
output emit the done marker and return; if the event stream ends without a
completion event, the loop epilogue (line 254) emits the done marker. -/
def agent_frames : List AgentEvent → List Frame
  | [] => [Frame.done]
  | AgentEvent.text_delta s :: rest =>
    if s = "" then agent_frames rest
    else Frame.contentDelta s :: agent_frames rest
  | AgentEvent.completed :: _ => [Frame.done]
  | AgentEvent.tool_output s :: rest =>
    if s = "" then agent_frames rest
    else [Frame.contentDelta s, Frame.done]
  | AgentEvent.message_output parts :: rest =>
    (parts.filter (fun p => decide (p ≠ ""))).map Frame.contentDelta ++
      agent_frames rest
  | AgentEvent.other :: rest => agent_frames rest

/-- How the agent route of one `stream_chat` call unfolds: either it runs to
termination over a list of events, or some exception occurs during
triage/agent streaming (after the content chunks emitted so far) and control
falls through to the regular chat fallback.  Exceptions cannot occur between a
done-marker yield and its immediately following `return`, so the frames
emitted before a failure are content frames only. -/
inductive AgentPath
  | success (events : List AgentEvent)
  | failure (emitted_deltas : List String)

/-- `ChatService.stream_chat` (`services/chat_service.py` lines 31–274): no
user message → straight to the engine fallback; otherwise the agent route
either completes (its frames end in the done marker) or fails part-way and the
engine fallback streams after the partial output.  The engine generator
swallows its own exceptions, so the outer `except` handlers of `stream_chat`
are unreachable in this model. -/
def stream_chat (path : AgentPath) (env : Env) (messages : List Message) :
    List Frame :=
  match extract_latest_user_message messages with
  | none => (chat_stream env messages).frames
  | some _ =>
    match path with
    | AgentPath.success events => agent_frames events
    | AgentPath.failure deltas =>
      deltas.map Frame.contentDelta ++ (chat_stream env messages).frames

/-- The one execution path on which the emitted sequence ends with no terminal
frame: the engine path runs (non-empty input, healthy backend, 200 response),
the upstream line stream ends without a `data: [DONE]` line, and the line
iterator does not raise. -/
def silent_end (env : Env) (messages : List Message) : Bool :=
  decide (messages ≠ []) && env.healthOk &&
    (match env.outcome with
     | StreamOutcome.response status lines none =>
       decide (status = 200) && !(lines.any is_done_data_line)
     | _ => false)

/-- Whether a `stream_chat` call reaches the engine fallback. -/
def falls_back (path : AgentPath) (messages : List Message) : Bool :=
  (extract_latest_user_message messages).isNone ||
    (match path with
     | AgentPath.failure _ => true
     | AgentPath.success _ => false)

theorem stream_frames_shape (stream_err : Option String) :
    ∀ lines : List String, ∃ (ds : List String) (tail : List Frame),
      stream_frames lines stream_err = ds.map Frame.contentDelta ++ tail ∧
        (tail = [] ∨ tail = [Frame.done] ∨ ∃ m, tail = [Frame.error m]) ∧
        (tail = [] ↔ lines.any is_done_data_line = false ∧ stream_err = none) := by
  intro lines
  induction lines with
  | nil =>
    cases stream_err with
    | none => exact ⟨[], [], rfl, Or.inl rfl, by simp⟩
    | some e =>
      refine ⟨[], [Frame.error ("An error occurred: " ++ e)], rfl,
        Or.inr (Or.inr ⟨_, rfl⟩), by simp⟩
  | cons line rest ih =>
    by_cases hd : is_data_line line
    · by_cases hq : sse_chunk line = "[DONE]".toList
      · refine ⟨[], [Frame.done], ?_, Or.inr (Or.inl rfl), ?_⟩
        · rw [stream_frames, if_pos hd, if_pos hq]
          rfl
        · have hdone : is_done_data_line line = true := by
            rw [is_done_data_line, hd]
            simp [hq]
          simp [hdone]
      · obtain ⟨ds, tail, heq, hforms, hiff⟩ := ih
        refine ⟨String.mk (sse_chunk line) :: ds, tail, ?_, hforms, ?_⟩
        · rw [stream_frames, if_pos hd, if_neg hq, heq]
          rfl
        · have hdone : is_done_data_line line = false := by
            rw [is_done_data_line, hd]
            simp only [Bool.true_and]
            exact decide_eq_false hq
          simp only [List.any_cons, hdone, Bool.false_or]
          exact hiff
    · obtain ⟨ds, tail, heq, hforms, hiff⟩ := ih
      refine ⟨ds, tail, ?_, hforms, ?_⟩
      · rw [stream_frames, if_neg hd, heq]
      · have hdone : is_done_data_line line = false := by
          rw [is_done_data_line]
          simp [hd]
        simp only [List.any_cons, hdone, Bool.false_or]
        exact hiff

theorem agent_frames_shape : ∀ events : List AgentEvent, ∃ ds : List String,
    agent_frames events = ds.map Frame.contentDelta ++ [Frame.done] := by
  intro events
  induction events with
  | nil => exact ⟨[], rfl⟩
  | cons ev rest ih =>
    obtain ⟨ds, hds⟩ := ih
    cases ev with
    | text_delta s =>
      by_cases hs : s = ""
      · exact ⟨ds, by rw [agent_frames, if_pos hs, hds]⟩
      · exact ⟨s :: ds, by rw [agent_frames, if_neg hs, hds]; rfl⟩
    | completed => exact ⟨[], rfl⟩
    | tool_output s =>
      by_cases hs : s = ""
      · exact ⟨ds, by rw [agent_frames, if_pos hs, hds]⟩
      · exact ⟨[s], by rw [agent_frames, if_neg hs]; rfl⟩
    | message_output parts =>
      refine ⟨parts.filter (fun p => decide (p ≠ "")) ++ ds, ?_⟩
      rw [agent_frames, hds, List.map_append, List.append_assoc]
    | other => exact ⟨ds, by rw [agent_frames, hds]⟩

theorem chat_stream_shape (env : Env) (messages : List Message) :
    ∃ (ds : List String) (tail : List Frame),
      (chat_stream env messages).frames = ds.map Frame.contentDelta ++ tail ∧
        (tail = [] ∨ tail = [Frame.done] ∨ ∃ m, tail = [Frame.error m]) ∧
        (tail = [] ↔ silent_end env messages = true) := by
  obtain ⟨hOk, outc⟩ := env
  by_cases hm : messages = []
  · subst hm
    refine ⟨[], [Frame.error "No messages provided"], ?_,
      Or.inr (Or.inr ⟨_, rfl⟩), ?_⟩
    · rfl
    · simp [silent_end]
  · cases hOk with
    | false =>
      refine ⟨[], [Frame.error "LLM service is not available"], ?_,
        Or.inr (Or.inr ⟨_, rfl⟩), ?_⟩
      · simp [chat_stream, hm]
      · simp [silent_end]
    | true =>
      cases outc with
      | transportError e =>
        refine ⟨[], [Frame.error ("An error occurred: " ++ e)], ?_,
          Or.inr (Or.inr ⟨_, rfl⟩), ?_⟩
        · simp [chat_stream, hm]
        · simp [silent_end]
      | response status lines stream_err =>
        by_cases hst : status = 200
        · subst hst
          obtain ⟨ds, tail, heq, hforms, hiff⟩ := stream_frames_shape stream_err lines
          refine ⟨ds, tail, ?_, hforms, ?_⟩
          · have hred :
                (chat_stream ⟨true, StreamOutcome.response 200 lines stream_err⟩
                  messages).frames = stream_frames lines stream_err := by
              simp [chat_stream, hm]
            rw [hred, heq]
          · rw [hiff]
            cases stream_err with
            | none => simp [silent_end, hm]
            | some e => simp [silent_end]
        · refine ⟨[], [Frame.error ("LLM service error: " ++ toString status)], ?_,
            Or.inr (Or.inr ⟨_, rfl⟩), ?_⟩
          · simp [chat_stream, hm, hst]
          · cases stream_err with
            | none => simp [silent_end, hst]
            | some e => simp [silent_end]

/-- C1 (amended): every `stream_chat` execution emits a sequence of content
frames followed by at most one terminal frame (one done marker or one error
frame, never more); the terminal frame is present on every path except one —
when the call reaches the engine fallback and the upstream 200-response line
stream ends without a `data: [DONE]` line and without a transport error, the
sequence ends with zero terminal frames (the claim's "never zero" fails
there, see the counterexample). -/
theorem stream_chat_terminal_frames (path : AgentPath) (env : Env)
    (messages : List Message) :
    ∃ (ds : List String) (tail : List Frame),
      stream_chat path env messages = ds.map Frame.contentDelta ++ tail ∧
        (tail = [] ∨ tail = [Frame.done] ∨ ∃ m, tail = [Frame.error m]) ∧
        (tail = [] ↔ (falls_back path messages && silent_end env messages) = true) := by
  rcases hx : extract_latest_user_message messages with _ | u
  · obtain ⟨ds, tail, heq, hforms, hiff⟩ := chat_stream_shape env messages
    refine ⟨ds, tail, ?_, hforms, ?_⟩
    · simp only [stream_chat.eq_def, hx]
      exact heq
    · rw [hiff]
      simp [falls_back, hx]
  · cases path with
    | success events =>
      obtain ⟨ds, hds⟩ := agent_frames_shape events
      refine ⟨ds, [Frame.done], ?_, Or.inr (Or.inl rfl), ?_⟩
      · simp only [stream_chat.eq_def, hx]
        exact hds
      · simp [falls_back, hx]
    | failure deltas =>
      obtain ⟨ds, tail, heq, hforms, hiff⟩ := chat_stream_shape env messages
      refine ⟨deltas ++ ds, tail, ?_, hforms, ?_⟩
      · simp only [stream_chat.eq_def, hx]
        rw [heq, List.map_append, List.append_assoc]
      · rw [hiff]
        simp [falls_back, hx]

/-- C1 counterexample: the triage route fails immediately (fallback taken),
the backend is healthy and streams one content line but the upstream ends
without a `[DONE]` marker — the emitted sequence contains zero terminal
frames, refuting "never zero terminal frames". -/
theorem stream_chat_zero_terminal :
    (stream_chat (AgentPath.failure [])
        ⟨true, StreamOutcome.response 200 ["data: hello"] none⟩
        [⟨Role.user, "hi"⟩]).countP is_terminal = 0 := by
  decide

/-- C10: with an empty message list, `chat_stream` yields exactly one error
frame, runs no health check, issues no HTTP request and registers no session
— for every environment. -/
theorem chat_stream_empty_messages (env : Env) :
    chat_stream env [] =
      { frames := [Frame.error "No messages provided"],
        health_checked := false, http_requested := false,
        session_registered := false } := rfl

/-! ### MCPService (`services/mcp_service.py`) and the tool-call wrapper of
`ChatService.stream_chat`

JSON values produced by the decision parser are modelled by a small inductive.
The JSON decoder itself (`json.loads`) is an external collaborator passed in
as a function `parse_obj : List Char → Option (List (String × Json))`; it is
only ever applied to a substring running from the first `{` to the last `}`,
and a standard JSON parse of such a string yields a top-level object when it
succeeds, so the decoder is modelled as returning the object's fields (with
`none` for any parse failure — the caught `JSONDecodeError` path).
-/

inductive Json
  | null
  | bool (b : Bool)
  | num (n : Int)
  | str (s : String)
  | arr (items : List Json)
  | obj (fields : List (String × Json))

mutual

/-- Rendering of a JSON value as Python `str()` renders the values
interpolated into the work-log f-strings (scalars verbatim, composites with
their delimiters and comma-separated entries). -/
def Json.render : Json → String
  | Json.str s => s
  | Json.num n => toString n
  | Json.bool b => if b then "True" else "False"
  | Json.null => "None"
  | Json.arr items => "[" ++ Json.render_items items ++ "]"
  | Json.obj fields => "\x7b" ++ Json.render_fields fields ++ "\x7d"

def Json.render_items : List Json → String
  | [] => ""
  | [x] => Json.render x
  | x :: xs => Json.render x ++ ", " ++ Json.render_items xs

def Json.render_fields : List (String × Json) → String
  | [] => ""
  | [(k, v)] => k ++ ": " ++ Json.render v
  | (k, v) :: fs => k ++ ": " ++ Json.render v ++ ", " ++ Json.render_fields fs

end

/-- One tool call decided by the completion backend
(`{"name": parsed['tool'], "args": parsed.get('arguments', {})}`,
`mcp_service.py` line 170). -/
structure ToolCall where
  name : Json
  args : Json

/-- One work-log entry (`{"tool": ..., "args": ..., "result": ...}`,
`mcp_service.py` line 343). -/
structure WorkLogEntry where
  tool : Json
  args : Json
  result : String

/-- The response-cleaning step of `MCPService.call_llm_for_tools`
(line 157): `full_response.replace('```json', '').replace('```', '').strip()`. -/
def clean_response (full_response : String) : List Char :=
  char_trim (remove_all "```".toList (remove_all "```json".toList full_response.toList))

/-- The brace-substring extraction of line 165:
`response_clean[response_clean.find("{") : response_clean.rfind("}") + 1]`. -/
def extract_braces (cs : List Char) : List Char :=
  let i := cs.findIdx (fun c => c == '\x7b')
  let j := cs.length - 1 - (cs.reverse.findIdx (fun c => c == '\x7d'))
  (cs.drop i).take (j + 1 - i)

/-- `MCPService.call_llm_for_tools` (lines 129–175), with the LLM response
already collected (`full_response` is what `get_llm_response` returned; that
helper returns `""` on any engine error, which is the first guard here).
A response containing the `[]` sentinel, lacking braces, failing to decode, or
decoding to an object without a `"tool"` key all yield the empty decision —
the caught-exception paths of the Python code return `[]` as well, so the
function is total. -/
def call_llm_for_tools
    (parse_obj : List Char → Option (List (String × Json)))
    (full_response : String) : List ToolCall :=
  if full_response = "" then []
  else
    let response_clean := clean_response full_response
    if "[]".toList <:+: response_clean then []
    else if response_clean.contains '\x7b' && response_clean.contains '\x7d' then
      match parse_obj (extract_braces response_clean) with
      | none => []
      | some parsed =>
        match parsed.lookup "tool" with
        | none => []
        | some tool_json =>
          [{ name := tool_json,
             args := (parsed.lookup "arguments").getD (Json.obj []) }]
    else []

/-- Outcome of `session.call_tool(tool_name, arguments)`: either a result with
a (possibly empty) list of content texts, or a raised exception. -/
inductive ToolCallOutcome
  | ok (content : List String)
  | exn (err : String)

/-- `MCPService.call_mcp_tool` (lines 195–214): first content text, or
`"No result"`, or — for any exception — the textual payload
`"Error: {e}"`; the function never raises (it is total). -/
def call_mcp_tool : ToolCallOutcome → String
  | ToolCallOutcome.ok [] => "No result"
  | ToolCallOutcome.ok (t :: _) => t
  | ToolCallOutcome.exn e => "Error: " ++ e

/-- Parameter entry of a tool schema (`parameters.properties` of
`convert_to_llm_tool`); `ptype` models the `"type"` entry. -/
structure ToolParam where
  name : String
  ptype : String
  description : String
deriving DecidableEq

/-- One tool descriptor as produced by `convert_to_llm_tool` (lines 65–86),
flattened to the fields `create_system_prompt` reads. -/
structure ToolDescriptor where
  name : String
  description : String
  params : List ToolParam
deriving DecidableEq

def render_tool_param (p : ToolParam) : String :=
  "    - " ++ p.name ++ " (" ++ p.ptype ++ "): " ++ p.description ++ "\n"

def render_tool (t : ToolDescriptor) : String :=
  "\n- " ++ t.name ++ ": " ++ t.description ++ "\n" ++
    (if t.params.isEmpty then ""
     else "  ארגומנטים:\n" ++ String.join (t.params.map render_tool_param))

def tool_format_instructions : String :=
  "\n\nפורמט תשובה (החזר רק JSON, ללא הסברים):" ++
    "\n- לקריאת כלי: \x7b\"tool\": \"name\", \"arguments\": \x7b...\x7d\x7d" ++
    "\n- כאשר סיימת: []" ++
    "\n\nחשוב: החזר רק JSON - ללא טקסט, ללא הסברים."

/-- `MCPService.create_system_prompt` (lines 27–63).  `user_info` is the
`json.dumps` rendering of the user-info resource when available. -/
def create_system_prompt (functions : Option (List ToolDescriptor))
    (user_info : Option String) : String :=
  "אתה עוזר בינה מלאכותית שמטרתו לספק מידע מדויק ואמין בשפה העברית. ענה באופן ברור, מדויק, ומבוסס על עובדות בלבד." ++
    (match user_info with
     | some info => "\n\nמידע על המשתמש:\n" ++ info ++ "."
     | none => "") ++
    (match functions with
     | some fs =>
       if fs.isEmpty then ""
       else
         "\n\nיש לך גישה לכלים הבאים:\n" ++ String.join (fs.map render_tool) ++
           tool_format_instructions
     | none => "")

/-- The sentence appended to each loop prompt and removed again from the
final-answer prompt (lines 316 and 327). -/
def done_prompt_suffix : String :=
  "אם זה עונה על השאלה, החזר []. אחרת, קרא לכלי הבא:"

/-- Models Python `s.replace(pat, "")` on `String`. -/
def str_remove_all (pat s : String) : String :=
  String.mk (remove_all pat.toList s.toList)

/-- The work-log rendering shared by the loop prompt and the exhaustion
prompt (lines 312–315 and 351–354): question, `tool(args) = result` lines,
and the most recent result as the current answer. -/
def work_log_message (user_prompt : String) (work_log : List WorkLogEntry) :
    String :=
  "שאלה: " ++ user_prompt ++ "\n\nחישובים שבוצעו:\n" ++
    String.join (work_log.map (fun step =>
      "- " ++ Json.render step.tool ++ "(" ++ Json.render step.args ++ ") = " ++
        step.result ++ "\n")) ++
    "\n\nתשובה נוכחית: " ++ (work_log.getLastD ⟨Json.null, Json.null, ""⟩).result

/-- The user message of one loop iteration (lines 311–318): the raw prompt on
the first iteration, else the work-log rendering plus the done/next-tool
instruction. -/
def loop_message (user_prompt : String) (work_log : List WorkLogEntry) :
    String :=
  if work_log.isEmpty then user_prompt
  else work_log_message user_prompt work_log ++ "\n\n" ++ done_prompt_suffix

/-- The exhaustion prompt (lines 351–354). -/
def exhaustion_message (user_prompt : String) (work_log : List WorkLogEntry) :
    String :=
  work_log_message user_prompt work_log ++ "\n\nבבקשה סכם את התוצאה הסופית."

/-- The agentic `while iteration < max_iterations` loop of
`MCPService.process_with_mcp` (lines 303–360), parameterized by the two
collaborators: `decide_tools k msg` is the decision list obtained from
`call_llm_for_tools` at loop iteration `k` for user message `msg` (the
iteration counter always equals the work-log length, since each iteration
appends exactly one entry), and `tool_outcome k t` is the provider outcome of
executing `t` at iteration `k`.  `remaining` is `max_iterations - iteration`.
The result pairs the value returned by the Python function with the final
value of the `work_log` variable. -/
def agentic_loop (decide_tools : Nat → String → List ToolCall)
    (tool_outcome : Nat → ToolCall → ToolCallOutcome)
    (user_prompt : String) (user_info : Option String) :
    Nat → List WorkLogEntry → Option (List Message) × List WorkLogEntry
  | 0, work_log =>
    (if work_log.isEmpty then none
     else
       some [⟨Role.system, create_system_prompt none user_info⟩,
             ⟨Role.user, exhaustion_message user_prompt work_log⟩],
     work_log)
  | remaining + 1, work_log =>
    match decide_tools work_log.length (loop_message user_prompt work_log) with
    | [] =>
      (some [⟨Role.system, create_system_prompt none user_info⟩,
             ⟨Role.user,
               str_remove_all done_prompt_suffix
                 (loop_message user_prompt work_log)⟩],
       work_log)
    | tool :: _ =>
      agentic_loop decide_tools tool_outcome user_prompt user_info remaining
        (work_log ++
          [⟨tool.name, tool.args,
            call_mcp_tool (tool_outcome work_log.length tool)⟩])

/-- `MCPService.process_with_mcp` (lines 262–364).  `connect_ok = false`
models an exception while connecting/initializing the session (the outer
`except` returns `None`); `tools` is the `get_available_tools` result;
`pre_decision` is the pre-loop `call_llm_for_tools(system_prompt, user_prompt)`
check (a separate backend call from the loop's first decision); then the
bounded loop runs with `max_iterations = 5`. -/
def process_with_mcp (connect_ok : Bool) (tools : List ToolDescriptor)
    (user_info : Option String) (pre_decision : List ToolCall)
    (decide_tools : Nat → String → List ToolCall)
    (tool_outcome : Nat → ToolCall → ToolCallOutcome)
    (user_prompt : String) : Option (List Message) :=
  if !connect_ok then none
  else if tools.isEmpty then none
  else if pre_decision.isEmpty then none
  else (agentic_loop decide_tools tool_outcome user_prompt user_info 5 []).1

/-- The mutable caches of the module-level `mcp_service` singleton
(`MCPService.__init__`, lines 20–25; the singleton is created once at import
time, line 373, and shared by every request). -/
structure MCPState where
  tools_cache : Option (List ToolDescriptor)
  user_info_cache : Option String
deriving DecidableEq

def initial_mcp_state : MCPState := ⟨none, none⟩

/-- `MCPService.get_available_tools` (lines 216–236): return the cached list
when present — regardless of which session is passed in — otherwise query the
session (`list_tools_result` is the outcome of `session.list_tools()`:
`Except.error` is the caught-exception path returning `[]` without caching). -/
def get_available_tools
    (list_tools_result : Except String (List ToolDescriptor))
    (st : MCPState) : List ToolDescriptor × MCPState :=
  match st.tools_cache with
  | some tools => (tools, st)
  | none =>
    match list_tools_result with
    | Except.ok tools => (tools, { st with tools_cache := some tools })
    | Except.error _ => ([], st)

/-- `MCPService.clear_cache` (lines 366–369).  No code path of the service
invokes it. -/
def clear_cache (_st : MCPState) : MCPState := ⟨none, none⟩

/-! The per-call reconnect wrapper `logged_call_tool` installed by
`ChatService.stream_chat` (`services/chat_service.py` lines 99–121). -/

/-- Connection state of a tool-provider session (§4.2 of the specification:
Disconnected/Connected/Stale). -/
inductive ConnState
  | connected
  | stale
  | disconnected
deriving DecidableEq

/-- Observable actions of the wrapper, in order of occurrence. -/
inductive SessionEvent
  | cleanup
  | connect
  | toolCall (tool_name : String)
deriving DecidableEq

/-- The `logged_call_tool` wrapper: on every call it runs `cleanup()` with
errors ignored (`_cleanup_fails` records whether cleanup raised — the trace is
the same either way), then `connect()`, then the original `call_tool`.  The
wrapper never inspects the connection state, which is why the parameters are
unused. -/
def logged_call_tool (_conn : ConnState) (_cleanup_fails : Bool)
    (tool_name : String) : List SessionEvent :=
  [SessionEvent.cleanup, SessionEvent.connect, SessionEvent.toolCall tool_name]

def is_connect_event : SessionEvent → Bool
  | SessionEvent.connect => true
  | _ => false

/-! Lemmas about the agentic loop. -/

theorem agentic_loop_log_length (decide_tools : Nat → String → List ToolCall)
    (tool_outcome : Nat → ToolCall → ToolCallOutcome) (user_prompt : String)
    (user_info : Option String) :
    ∀ (n : Nat) (work_log : List WorkLogEntry),
      ((agentic_loop decide_tools tool_outcome user_prompt user_info n
          work_log).2).length ≤ work_log.length + n := by
  intro n
  induction n with
  | zero =>
    intro work_log
    rw [agentic_loop]
    show work_log.length ≤ work_log.length + 0
    omega
  | succ n ih =>
    intro work_log
    rw [agentic_loop]
    cases hdec : decide_tools work_log.length (loop_message user_prompt work_log) with
    | nil =>
      show work_log.length ≤ work_log.length + (n + 1)
      omega
    | cons t rest =>
      have h2 := ih (work_log ++
        [⟨t.name, t.args, call_mcp_tool (tool_outcome work_log.length t)⟩])
      rw [List.length_append, List.length_cons, List.length_nil] at h2
      show (agentic_loop decide_tools tool_outcome user_prompt user_info n
        (work_log ++
          [⟨t.name, t.args,
            call_mcp_tool (tool_outcome work_log.length t)⟩])).2.length ≤
        work_log.length + (n + 1)
      omega

theorem agentic_loop_isSome (decide_tools : Nat → String → List ToolCall)
    (tool_outcome : Nat → ToolCall → ToolCallOutcome) (user_prompt : String)
    (user_info : Option String) :
    ∀ (n : Nat) (work_log : List WorkLogEntry), work_log.isEmpty = false →
      ((agentic_loop decide_tools tool_outcome user_prompt user_info n
          work_log).1).isSome = true := by
  intro n
  induction n with
  | zero =>
    intro work_log h
    rw [agentic_loop]
    simp [h]
  | succ n ih =>
    intro work_log h
    rw [agentic_loop]
    cases hdec : decide_tools work_log.length (loop_message user_prompt work_log) with
    | nil => simp
    | cons t rest =>
      exact ih _ (by simp)

theorem agentic_loop_from_start_isSome
    (decide_tools : Nat → String → List ToolCall)
    (tool_outcome : Nat → ToolCall → ToolCallOutcome) (user_prompt : String)
    (user_info : Option String) (n : Nat) :
    ((agentic_loop decide_tools tool_outcome user_prompt user_info (n + 1)
        []).1).isSome = true := by
  rw [agentic_loop]
  cases hdec : decide_tools (List.length ([] : List WorkLogEntry))
      (loop_message user_prompt []) with
  | nil => simp
  | cons t rest =>
    exact agentic_loop_isSome decide_tools tool_outcome user_prompt user_info n _
      (by simp)

theorem agentic_loop_exact_length (decide_tools : Nat → String → List ToolCall)
    (tool_outcome : Nat → ToolCall → ToolCallOutcome) (user_prompt : String)
    (user_info : Option String)
    (hnd : ∀ k msg, decide_tools k msg ≠ []) :
    ∀ (n : Nat) (work_log : List WorkLogEntry),
      ((agentic_loop decide_tools tool_outcome user_prompt user_info n
          work_log).2).length = work_log.length + n := by
  intro n
  induction n with
  | zero =>
    intro work_log
    rw [agentic_loop]
    show work_log.length = work_log.length + 0
    omega
  | succ n ih =>
    intro work_log
    rw [agentic_loop]
    cases hdec : decide_tools work_log.length (loop_message user_prompt work_log) with
    | nil => exact absurd hdec (hnd _ _)
    | cons t rest =>
      have h2 := ih (work_log ++
        [⟨t.name, t.args, call_mcp_tool (tool_outcome work_log.length t)⟩])
      rw [List.length_append, List.length_cons, List.length_nil] at h2
      show (agentic_loop decide_tools tool_outcome user_prompt user_info n
        (work_log ++
          [⟨t.name, t.args,
            call_mcp_tool (tool_outcome work_log.length t)⟩])).2.length =
        work_log.length + (n + 1)
      omega

/-- C2: once the agentic path is entered (session connected, tool list
non-empty, non-empty pre-loop decision), `process_with_mcp` performs at most
`max_iterations = 5` decide/execute cycles — the final work log never exceeds
5 entries, and equals exactly 5 for a decision sequence that never returns the
done sentinel — and it always returns a final answer-generation context
(`some` message list) built by the loop from the accumulated work log. -/
theorem process_with_mcp_bounded (tools : List ToolDescriptor)
    (user_info : Option String) (pre_decision : List ToolCall)
    (decide_tools : Nat → String → List ToolCall)
    (tool_outcome : Nat → ToolCall → ToolCallOutcome) (user_prompt : String)
    (htools : tools.isEmpty = false) (hpre : pre_decision.isEmpty = false) :
    ((agentic_loop decide_tools tool_outcome user_prompt user_info 5
        []).2).length ≤ 5 ∧
      process_with_mcp true tools user_info pre_decision decide_tools
          tool_outcome user_prompt =
        (agentic_loop decide_tools tool_outcome user_prompt user_info 5 []).1 ∧
      (∃ msgs,
        process_with_mcp true tools user_info pre_decision decide_tools
            tool_outcome user_prompt = some msgs) ∧
      ((∀ k msg, decide_tools k msg ≠ []) →
        ((agentic_loop decide_tools tool_outcome user_prompt user_info 5
            []).2).length = 5) := by
  have hproc : process_with_mcp true tools user_info pre_decision decide_tools
      tool_outcome user_prompt =
      (agentic_loop decide_tools tool_outcome user_prompt user_info 5 []).1 := by
    rw [process_with_mcp]
    simp [htools, hpre]
  refine ⟨?_, hproc, ?_, ?_⟩
  · have h := agentic_loop_log_length decide_tools tool_outcome user_prompt
      user_info 5 []
    simpa using h
  · have h := agentic_loop_from_start_isSome decide_tools tool_outcome
      user_prompt user_info 4
    rw [hproc]
    exact Option.isSome_iff_exists.mp h
  · intro hnd
    have h := agentic_loop_exact_length decide_tools tool_outcome user_prompt
      user_info hnd 5 []
    simpa using h

/-- Witness for `process_with_mcp_bounded` at a concrete input. -/
theorem process_with_mcp_bounded_witness :
    ((agentic_loop (fun _ _ => []) (fun _ _ => ToolCallOutcome.ok []) "q" none 5
        []).2).length ≤ 5 ∧
      process_with_mcp true [⟨"add", "", []⟩] none
          [⟨Json.str "add", Json.obj []⟩] (fun _ _ => [])
          (fun _ _ => ToolCallOutcome.ok []) "q" =
        (agentic_loop (fun _ _ => []) (fun _ _ => ToolCallOutcome.ok []) "q"
          none 5 []).1 ∧
      (∃ msgs,
        process_with_mcp true [⟨"add", "", []⟩] none
            [⟨Json.str "add", Json.obj []⟩] (fun _ _ => [])
            (fun _ _ => ToolCallOutcome.ok []) "q" = some msgs) ∧
      ((∀ k msg, (fun (_ : Nat) (_ : String) => ([] : List ToolCall)) k msg ≠ []) →
        ((agentic_loop (fun _ _ => []) (fun _ _ => ToolCallOutcome.ok []) "q"
            none 5 []).2).length = 5) :=
  process_with_mcp_bounded [⟨"add", "", []⟩] none
    [⟨Json.str "add", Json.obj []⟩] (fun _ _ => [])
    (fun _ _ => ToolCallOutcome.ok []) "q" rfl rfl

/-- C6: a tool-decision payload that does not decode to a JSON object, or
decodes to an object without a `"tool"` key, yields the empty decision without
raising, and feeding that payload to the agentic loop terminates it as "done":
the loop immediately returns the final answer-generation context (system
prompt without tool definitions plus the prompt with the done/next-tool
instruction removed), leaving the work log untouched — the request is not
aborted. -/
theorem call_llm_for_tools_malformed
    (parse_obj : List Char → Option (List (String × Json)))
    (full_response : String)
    (h : parse_obj (extract_braces (clean_response full_response)) = none ∨
      ∀ parsed,
        parse_obj (extract_braces (clean_response full_response)) = some parsed →
        parsed.lookup "tool" = none) :
    call_llm_for_tools parse_obj full_response = [] ∧
      ∀ (tool_outcome : Nat → ToolCall → ToolCallOutcome) (user_prompt : String)
        (user_info : Option String) (n : Nat) (work_log : List WorkLogEntry),
        agentic_loop (fun _ _ => call_llm_for_tools parse_obj full_response)
            tool_outcome user_prompt user_info (n + 1) work_log =
          (some [⟨Role.system, create_system_prompt none user_info⟩,
                 ⟨Role.user,
                   str_remove_all done_prompt_suffix
                     (loop_message user_prompt work_log)⟩],
           work_log) := by
  have hmain : call_llm_for_tools parse_obj full_response = [] := by
    by_cases hfr : full_response = ""
    · simp [call_llm_for_tools, hfr]
    · by_cases hin : ['[', ']'] <:+: clean_response full_response
      · simp [call_llm_for_tools, hfr, hin]
      · by_cases hbl : '\x7b' ∈ clean_response full_response
        · by_cases hbr : '\x7d' ∈ clean_response full_response
          · rcases hp : parse_obj (extract_braces (clean_response full_response))
              with _ | parsed
            · simp [call_llm_for_tools, hfr, hin, hbl, hbr, hp]
            · rcases h with h0 | h1
              · rw [h0] at hp
                exact absurd hp (by simp)
              · have ht := h1 parsed hp
                simp [call_llm_for_tools, hfr, hin, hbl, hbr, hp, ht]
          · simp [call_llm_for_tools, hfr, hin, hbr]
        · simp [call_llm_for_tools, hfr, hin, hbl]
  refine ⟨hmain, ?_⟩
  intro tool_outcome user_prompt user_info n work_log
  rw [agentic_loop]
  simp only [hmain]

/-- Witness for `call_llm_for_tools_malformed` at a concrete input: a
plain-text payload with no braces and a decoder that rejects everything. -/
theorem call_llm_for_tools_malformed_witness :
    call_llm_for_tools (fun _ => none) "the weather is nice" = [] ∧
      agentic_loop
          (fun _ _ => call_llm_for_tools (fun _ => none) "the weather is nice")
          (fun _ _ => ToolCallOutcome.ok []) "q" none 1 [] =
        (some [⟨Role.system, create_system_prompt none none⟩,
               ⟨Role.user,
                 str_remove_all done_prompt_suffix (loop_message "q" [])⟩],
         []) :=
  ⟨(call_llm_for_tools_malformed (fun _ => none) "the weather is nice"
      (Or.inl rfl)).1,
   (call_llm_for_tools_malformed (fun _ => none) "the weather is nice"
      (Or.inl rfl)).2 (fun _ _ => ToolCallOutcome.ok []) "q" none 0 []⟩

/-- C7: `call_mcp_tool` is a total function (it never raises); a provider
exception becomes the textual payload `"Error: {e}"`, and whatever text
`call_mcp_tool` produces is exactly what the loop appends to the work log
before continuing — one loop step with a non-empty decision rewrites to the
loop on the extended work log. -/
theorem call_mcp_tool_error_payload :
    (∀ e, call_mcp_tool (ToolCallOutcome.exn e) = "Error: " ++ e) ∧
      ∀ (decide_tools : Nat → String → List ToolCall)
        (tool_outcome : Nat → ToolCall → ToolCallOutcome)
        (user_prompt : String) (user_info : Option String) (n : Nat)
        (work_log : List WorkLogEntry) (t : ToolCall) (rest : List ToolCall),
        decide_tools work_log.length (loop_message user_prompt work_log) =
          t :: rest →
        agentic_loop decide_tools tool_outcome user_prompt user_info (n + 1)
            work_log =
          agentic_loop decide_tools tool_outcome user_prompt user_info n
            (work_log ++
              [⟨t.name, t.args,
                call_mcp_tool (tool_outcome work_log.length t)⟩]) := by
  refine ⟨fun e => rfl, ?_⟩
  intro decide_tools tool_outcome user_prompt user_info n work_log t rest hdec
  rw [agentic_loop, hdec]

/-- Witness for `call_mcp_tool_error_payload` at a concrete input: a failing
provider whose error text is appended to the work log. -/
theorem call_mcp_tool_error_payload_witness :
    call_mcp_tool (ToolCallOutcome.exn "boom") = "Error: " ++ "boom" ∧
      agentic_loop (fun _ _ => [⟨Json.str "add", Json.obj []⟩])
          (fun _ _ => ToolCallOutcome.exn "boom") "q" none 1 [] =
        agentic_loop (fun _ _ => [⟨Json.str "add", Json.obj []⟩])
          (fun _ _ => ToolCallOutcome.exn "boom") "q" none 0
          ([] ++
            [⟨Json.str "add", Json.obj [],
              call_mcp_tool (ToolCallOutcome.exn "boom")⟩]) :=
  ⟨call_mcp_tool_error_payload.1 "boom",
   call_mcp_tool_error_payload.2 (fun _ _ => [⟨Json.str "add", Json.obj []⟩])
     (fun _ _ => ToolCallOutcome.exn "boom") "q" none 0 []
     ⟨Json.str "add", Json.obj []⟩ [] rfl⟩

/-- C8 (amended): the `logged_call_tool` wrapper issues exactly one reconnect
attempt (best-effort cleanup with errors ignored, then connect) before every
tool call, regardless of the connection state — including when the connection
is Connected — and the tool call itself is performed after the reconnect.
The claim's "exactly zero reconnect attempts when Connected" fails (see the
counterexample). -/
theorem logged_call_tool_always_reconnects (conn : ConnState)
    (cleanup_fails : Bool) (tool_name : String) :
    logged_call_tool conn cleanup_fails tool_name =
      [SessionEvent.cleanup, SessionEvent.connect,
        SessionEvent.toolCall tool_name] ∧
      (logged_call_tool conn cleanup_fails tool_name).countP is_connect_event
        = 1 :=
  ⟨rfl, rfl⟩

/-- C8 counterexample: even with the connection in the Connected state (and a
cleanly succeeding cleanup), the wrapper issues one reconnect attempt, not
zero. -/
theorem logged_call_tool_connected_reconnects :
    (logged_call_tool ConnState.connected false "get_time").countP
        is_connect_event ≠ 0 := by
  decide

/-- C9 (amended): the tool-descriptor cache lives on the process-wide
`mcp_service` singleton, not on a session: while the cache is populated,
`get_available_tools` returns it unchanged for any session's `list_tools`
outcome (so it survives reconnects and is shared across requests), and it is
discarded only by `clear_cache` — which no code path invokes — after which the
next call queries the live session again. -/
theorem get_available_tools_cache_persists
    (list_tools_result : Except String (List ToolDescriptor)) (st : MCPState)
    (ts : List ToolDescriptor) (h : st.tools_cache = some ts) :
    get_available_tools list_tools_result st = (ts, st) ∧
      (clear_cache st).tools_cache = none ∧
      ∀ ts2, get_available_tools (Except.ok ts2) (clear_cache st) =
        (ts2, ⟨some ts2, none⟩) := by
  refine ⟨?_, rfl, fun ts2 => rfl⟩
  rw [get_available_tools.eq_def, h]

/-- Witness for `get_available_tools_cache_persists` at a concrete input. -/
theorem get_available_tools_cache_persists_witness :
    get_available_tools (Except.ok [⟨"beta", "", []⟩])
        ⟨some [⟨"alpha", "", []⟩], none⟩ =
      ([⟨"alpha", "", []⟩], ⟨some [⟨"alpha", "", []⟩], none⟩) ∧
      (clear_cache ⟨some [⟨"alpha", "", []⟩], none⟩).tools_cache = none ∧
      ∀ ts2, get_available_tools (Except.ok ts2)
          (clear_cache ⟨some [⟨"alpha", "", []⟩], none⟩) =
        (ts2, ⟨some ts2, none⟩) :=
  get_available_tools_cache_persists (Except.ok [⟨"beta", "", []⟩])
    ⟨some [⟨"alpha", "", []⟩], none⟩ [⟨"alpha", "", []⟩] rfl

/-- C9 counterexample: a first request's session lists tool `alpha` and the
result is cached on the singleton; a later, fresh session (as created after
any reconnect) whose provider now lists tool `beta` still observes the
previous session's cached list `alpha`. -/
theorem get_available_tools_cross_session :
    (get_available_tools (Except.ok [⟨"beta", "", []⟩])
        ((get_available_tools (Except.ok [⟨"alpha", "", []⟩])
          initial_mcp_state).2)).1 = [⟨"alpha", "", []⟩] ∧
      ([⟨"alpha", "", []⟩] : List ToolDescriptor) ≠ [⟨"beta", "", []⟩] := by
  constructor
  · rfl
  · decide
